import Mathlib

/-!
Verification of the AGNES accident-hotspot clustering core
(`clustering/agnes_algorithm.py`).

Shallow embedding conventions:
* Python floats are modelled as rationals (`ℚ`); all scores and
  coordinates stay in exact arithmetic.
* An input accident dictionary is modelled as a structure; dictionary
  keys read with `.get(key, default)` become `Option` fields (a missing
  key is `none`), keys read with mandatory indexing (`id`, `latitude`,
  `longitude`) are plain fields.
* The SciPy merge engine (`linkage` + `fcluster`) is not part of this
  repository's sources; `fit` is parameterised by an `engine` that
  returns either flat labels or an error message.  A raised Python
  exception is modelled as `Except.error`; `fit` catches it and turns
  it into its failure record, exactly as the `try/except` block does.
* `list.sort(key=..., reverse=True)` is a stable descending sort; a
  stable sort for a given preorder is extensionally unique, so it is
  embedded as `List.insertionSort` with the descending-severity
  relation.
* `numpy.unique` returns the distinct labels in ascending order, which
  is embedded as sorting the deduplicated label list.
-/

namespace Agnes

/-- Severity weights passed to the clusterer (`severity_weights` dict). -/
structure SeverityWeights where
  killed : ℚ
  injured : ℚ
  property_damage : ℚ
  deriving DecidableEq

/-- The default weights from `AGNESClusterer.__init__`. -/
def defaultSeverityWeights : SeverityWeights :=
  { killed := 10, injured := 5, property_damage := 1 }

/-- Constructor configuration of `AGNESClusterer`. -/
structure Config where
  linkage_method : String
  distance_threshold : ℚ
  min_cluster_size : ℕ
  severity_weights : SeverityWeights
  deriving DecidableEq

/-- The constructor defaults of `AGNESClusterer.__init__`. -/
def defaultConfig : Config :=
  { linkage_method := "complete", distance_threshold := 1/20,
    min_cluster_size := 3, severity_weights := defaultSeverityWeights }

/-- One input accident record.  Optional fields model dictionary keys
read through `.get` with a default. -/
structure Accident where
  id : ℕ
  latitude : ℚ
  longitude : ℚ
  victim_count : Option ℕ
  victim_killed : Option Bool
  victim_injured : Option Bool
  municipal : Option String
  date_committed : Option ℕ
  deriving DecidableEq

/-- One output cluster dictionary built by `_build_clusters`. -/
structure Cluster where
  cluster_id : ℤ
  center_latitude : ℚ
  center_longitude : ℚ
  accident_count : ℕ
  total_casualties : ℕ
  killed_count : ℕ
  injured_count : ℕ
  severity_score : ℚ
  primary_location : String
  municipalities : List String
  min_latitude : ℚ
  max_latitude : ℚ
  min_longitude : ℚ
  max_longitude : ℚ
  date_range_start : Option ℕ
  date_range_end : Option ℕ
  accident_ids : List ℕ
  deriving DecidableEq

/-- Embeds `AGNESClusterer._calculate_severity`: frequency capped at 40,
weighted casualties capped at 60, total capped at 100. -/
def calculate_severity (w : SeverityWeights)
    (accident_count killed_count injured_count : ℕ) : ℚ :=
  let frequency_score := min ((accident_count : ℚ) * 2) 40
  let casualty_score :=
    min ((killed_count : ℚ) * w.killed + (injured_count : ℚ) * w.injured) 60
  min (frequency_score + casualty_score) 100

/-- Embeds `sum(acc.get('victim_count', 0) for acc in cluster_accidents)`. -/
def totalCasualties (l : List Accident) : ℕ :=
  (l.map (fun a => a.victim_count.getD 0)).sum

/-- Embeds `sum(1 for acc in cluster_accidents if acc.get('victim_killed', False))`. -/
def killedCount (l : List Accident) : ℕ :=
  l.countP (fun a => a.victim_killed.getD false)

/-- Embeds `sum(1 for acc in cluster_accidents if acc.get('victim_injured', False))`. -/
def injuredCount (l : List Accident) : ℕ :=
  l.countP (fun a => a.victim_injured.getD false)

/-- Embeds `[acc.get('municipal', 'Unknown') for acc in cluster_accidents]`. -/
def municipalsOf (l : List Accident) : List String :=
  l.map (fun a => a.municipal.getD "Unknown")

/-- Embeds `max(set(municipalities), key=municipalities.count)`: the first
distinct value attaining the maximal occurrence count (Python's `max`
keeps the earliest maximum; set iteration order is unspecified, so the
first-occurrence order of `dedup` is the deterministic choice here). -/
def primaryLocation (ms : List String) : String :=
  match ms.dedup with
  | [] => ""
  | b :: rest =>
      rest.foldl (fun best m => if ms.count best < ms.count m then m else best) b

/-- The member sublist of one flat cluster: the accidents whose label
equals `lab`, in input order (the boolean-mask selection of
`_build_clusters`). -/
def membersOf (accidents : List Accident) (labels : List ℤ) (lab : ℤ) :
    List Accident :=
  ((accidents.zip labels).filter (fun p => p.2 == lab)).map Prod.fst

/-- The cluster dictionary assembled by `_build_clusters` for one label
whose member list is `a :: rest`. -/
def mkCluster (cfg : Config) (lab : ℤ) (a : Accident) (rest : List Accident) :
    Cluster :=
  let members := a :: rest
  { cluster_id := lab
    center_latitude := (members.map Accident.latitude).sum / (members.length : ℚ)
    center_longitude := (members.map Accident.longitude).sum / (members.length : ℚ)
    accident_count := members.length
    total_casualties := totalCasualties members
    killed_count := killedCount members
    injured_count := injuredCount members
    severity_score := calculate_severity cfg.severity_weights members.length
      (killedCount members) (injuredCount members)
    primary_location := primaryLocation (municipalsOf members)
    municipalities := (municipalsOf members).dedup
    min_latitude := (rest.map Accident.latitude).foldl min a.latitude
    max_latitude := (rest.map Accident.latitude).foldl max a.latitude
    min_longitude := (rest.map Accident.longitude).foldl min a.longitude
    max_longitude := (rest.map Accident.longitude).foldl max a.longitude
    date_range_start := (members.filterMap Accident.date_committed).min?
    date_range_end := (members.filterMap Accident.date_committed).max?
    accident_ids := members.map Accident.id }

/-- One iteration of the label loop of `_build_clusters`: `none` when
the member subset is smaller than `min_cluster_size` (the `continue`
branch), otherwise the assembled cluster.  A label with no members
never occurs for labels drawn from the label array; `none` there keeps
the function total. -/
def buildOne (cfg : Config) (accidents : List Accident) (labels : List ℤ)
    (lab : ℤ) : Option Cluster :=
  match membersOf accidents labels lab with
  | [] => none
  | a :: rest =>
      if (a :: rest).length < cfg.min_cluster_size then none
      else some (mkCluster cfg lab a rest)

/-- Descending-severity comparison used by the final sort. -/
def sevGE (c d : Cluster) : Prop :=
  d.severity_score ≤ c.severity_score

instance : DecidableRel sevGE := fun c d =>
  inferInstanceAs (Decidable (d.severity_score ≤ c.severity_score))

instance : IsTotal Cluster sevGE :=
  ⟨fun a b => le_total b.severity_score a.severity_score⟩

instance : IsTrans Cluster sevGE :=
  ⟨fun _ _ _ hab hbc => le_trans hbc hab⟩

/-- Embeds `np.unique(self.labels_)`: the distinct labels in ascending order. -/
def uniqueSorted (labels : List ℤ) : List ℤ :=
  List.insertionSort (fun a b => a ≤ b) labels.dedup

/-- The cluster list in label-iteration (aggregation) order, before the
final sort: the body of the `for cluster_id in np.unique(...)` loop. -/
def aggregated (cfg : Config) (accidents : List Accident) (labels : List ℤ) :
    List Cluster :=
  (uniqueSorted labels).filterMap (buildOne cfg accidents labels)

/-- Embeds `AGNESClusterer._build_clusters`: aggregate per label, then
`clusters.sort(key=lambda x: x['severity_score'], reverse=True)` — a
stable descending sort. -/
def build_clusters (cfg : Config) (accidents : List Accident)
    (labels : List ℤ) : List Cluster :=
  List.insertionSort sevGE (aggregated cfg accidents labels)

/-- The result dictionary of `AGNESClusterer.fit`.  Keys absent from
one of the two dictionary shapes are `Option` fields. -/
structure FitResult where
  success : Bool
  message : Option String
  total_accidents : Option ℕ
  clusters_found : Option ℕ
  clusters : List Cluster
  deriving DecidableEq

/-- The coordinate matrix extracted by `fit` (row `i` is
`[latitude, longitude]` of input `i`). -/
def extractCoords (accidents : List Accident) : List (ℚ × ℚ) :=
  accidents.map (fun a => (a.latitude, a.longitude))

/-- A merge engine: `linkage` followed by `fcluster`, abstracted as a
function from the coordinate matrix to flat labels, or to an error
message when the library call raises. -/
def Engine : Type :=
  List (ℚ × ℚ) → Except String (List ℤ)

/-- Embeds `AGNESClusterer.fit`: fast-reject when there are fewer points than
`min_cluster_size`; otherwise run the merge engine, build clusters,
drop those below the minimum size, and return the success record.  An
engine error is the caught exception of the `try/except` block. -/
def fit (cfg : Config) (engine : Engine) (accidents : List Accident) :
    FitResult :=
  if accidents.length < cfg.min_cluster_size then
    { success := false, message := some "Not enough accidents for clustering",
      total_accidents := none, clusters_found := none, clusters := [] }
  else
    match engine (extractCoords accidents) with
    | Except.error e =>
        { success := false, message := some e,
          total_accidents := none, clusters_found := none, clusters := [] }
    | Except.ok labels =>
        let valid := (build_clusters cfg accidents labels).filter
          (fun c => cfg.min_cluster_size ≤ c.accident_count)
        { success := true, message := none,
          total_accidents := some accidents.length,
          clusters_found := some valid.length, clusters := valid }

/-- The fitted-state surface of an `AGNESClusterer` instance that
`predict` consults: `labels_` is `None` until `fit` has run. -/
structure ClustererState where
  config : Config
  labels_ : Option (List ℤ)

/-- Embeds `AGNESClusterer.predict`: raises `ValueError("Model not fitted
yet")` on an unfitted instance (modelled as `Except.error`), otherwise
returns the stub all-zero label array. -/
def predict (m : ClustererState) (new_coordinates : List (ℚ × ℚ)) :
    Except String (List ℤ) :=
  match m.labels_ with
  | none => Except.error "Model not fitted yet"
  | some _ => Except.ok (List.replicate new_coordinates.length 0)

/-- A fully populated concrete accident record used in witnesses. -/
def accA : Accident :=
  ⟨1, 9, 125, some 2, some true, some false, some "Butuan", some 100⟩

/-- A concrete accident record with every optional key missing. -/
def accB : Accident :=
  ⟨2, 9, 125, none, none, none, none, none⟩

/-- The record `accB` with the optional keys set to the documented
defaults instead of missing. -/
def accBdefaults : Accident :=
  ⟨2, 9, 125, some 0, some false, some false, some "Unknown", none⟩

/-- A third concrete accident record used in witnesses. -/
def accC : Accident :=
  ⟨3, 19/2, 126, some 1, some false, some true, some "Cabadbaran", some 120⟩

/-- Three concrete input points forming one flat cluster. -/
def accidents3 : List Accident := [accA, accB, accC]

/-- Two concrete input points: below the default minimum size. -/
def accidents2 : List Accident := [accA, accB]

/-- An engine placing all three points in one flat cluster. -/
def engine3 : Engine := fun _ => Except.ok [1, 1, 1]

/-- An engine leaving every point a singleton (the strict-threshold
situation). -/
def engineSingletons : Engine := fun _ => Except.ok [1, 2, 3]

/-- An engine that always raises, to show the fast-reject guard never
reaches the merge step. -/
def engineBoom : Engine := fun _ => Except.error "boom"

end Agnes

namespace Agnes

/-- Claim C1: the severity scorer is the pure function
`min(min(accident_count*2, 40) + min(killed*w.killed + injured*w.injured, 60), 100)`,
and with the default weights it maps `(20,0,0)` to `40`, `(5,5,5)` to
`70`, and `(50,10,20)` to `100`. -/
theorem severity_formula_and_examples :
    (∀ (w : SeverityWeights) (ac k i : ℕ),
        calculate_severity w ac k i =
          min (min ((ac : ℚ) * 2) 40 +
            min ((k : ℚ) * w.killed + (i : ℚ) * w.injured) 60) 100) ∧
      calculate_severity defaultSeverityWeights 20 0 0 = 40 ∧
      calculate_severity defaultSeverityWeights 5 5 5 = 70 ∧
      calculate_severity defaultSeverityWeights 50 10 20 = 100 := by
  refine ⟨fun w ac k i => rfl, ?_, ?_, ?_⟩ <;>
    norm_num [calculate_severity, defaultSeverityWeights]

/-- Claim C7 (counterexample): with a caller-supplied negative weight
the score escapes the interval, so the bound does not hold for *any*
weights: at `killed` weight `-1` and one killed member the score is
negative. -/
theorem severity_negative_weight_counterexample :
    ¬ (0 ≤ calculate_severity ⟨-1, 5, 1⟩ 0 1 0 ∧
        calculate_severity ⟨-1, 5, 1⟩ 0 1 0 ≤ 100) := by
  norm_num [calculate_severity]

/-- Claim C7 (amended): the upper bound `≤ 100` holds for all inputs
and weights; the lower bound `0 ≤ score` holds whenever the
caller-supplied killed and injured weights are nonnegative (as the
defaults are). -/
theorem severity_bounded (w : SeverityWeights) (ac k i : ℕ) :
    calculate_severity w ac k i ≤ 100 ∧
      (0 ≤ w.killed → 0 ≤ w.injured → 0 ≤ calculate_severity w ac k i) := by
  unfold calculate_severity
  refine ⟨min_le_right _ _, fun hk hi => ?_⟩
  refine le_min (add_nonneg ?_ ?_) (by norm_num)
  · exact le_min (by positivity) (by norm_num)
  · exact le_min
      (add_nonneg (mul_nonneg (by positivity) hk) (mul_nonneg (by positivity) hi))
      (by norm_num)

/-- Claim C7 (witness): the amended bound applied at the default
weights and a concrete cluster profile. -/
theorem severity_bounded_witness :
    (0 : ℚ) ≤ defaultSeverityWeights.killed ∧
      (0 : ℚ) ≤ defaultSeverityWeights.injured ∧
      calculate_severity defaultSeverityWeights 5 5 5 ≤ 100 ∧
      0 ≤ calculate_severity defaultSeverityWeights 5 5 5 :=
  ⟨by norm_num [defaultSeverityWeights], by norm_num [defaultSeverityWeights],
    (severity_bounded defaultSeverityWeights 5 5 5).1,
    (severity_bounded defaultSeverityWeights 5 5 5).2
      (by norm_num [defaultSeverityWeights])
      (by norm_num [defaultSeverityWeights])⟩

end Agnes

namespace Agnes

/-- Claim C2: with fewer input points than `min_cluster_size`, `fit`
returns the failure record with message "Not enough accidents for
clustering" and an empty cluster list, for *every* merge engine — the
merge step is never consulted, and the failure is a value, not an
exception. -/
theorem fit_insufficient_data (cfg : Config) (engine : Engine)
    (accidents : List Accident)
    (h : accidents.length < cfg.min_cluster_size) :
    fit cfg engine accidents =
      { success := false,
        message := some "Not enough accidents for clustering",
        total_accidents := none, clusters_found := none, clusters := [] } := by
  simp [fit, h]

/-- Claim C2 (witness): two points against the default minimum size of
three, with an engine that would raise if it were ever run. -/
theorem fit_insufficient_data_witness :
    accidents2.length < defaultConfig.min_cluster_size ∧
      fit defaultConfig engineBoom accidents2 =
        { success := false,
          message := some "Not enough accidents for clustering",
          total_accidents := none, clusters_found := none, clusters := [] } :=
  ⟨by decide, fit_insufficient_data defaultConfig engineBoom accidents2 (by decide)⟩

/-- Claim C9 (counterexample): `predict` on an unfitted instance does
not report failure as a returned value — it raises
`ValueError("Model not fitted yet")` (modelled as the `Except.error`
branch), an exception crossing the public boundary, as the
repository's own test `test_predict_before_fit` asserts. -/
theorem predict_unfitted_raises :
    predict ⟨defaultConfig, none⟩ [(9, 125)] =
      Except.error "Model not fitted yet" := by
  rfl

/-- Claim C9 (amended): `fit` is the error boundary — any engine
exception is caught and converted to the failure record with that
message — and `predict` on a *fitted* instance returns its stub labels
without raising; but `predict` on an unfitted instance raises. -/
theorem fit_error_boundary :
    (∀ (cfg : Config) (engine : Engine) (accidents : List Accident)
        (e : String),
        engine (extractCoords accidents) = Except.error e →
        ¬ accidents.length < cfg.min_cluster_size →
        fit cfg engine accidents =
          { success := false, message := some e,
            total_accidents := none, clusters_found := none,
            clusters := [] }) ∧
      (∀ (m : ClustererState) (coords : List (ℚ × ℚ)) (ls : List ℤ),
          m.labels_ = some ls →
          predict m coords =
            Except.ok (List.replicate coords.length 0)) := by
  constructor
  · intro cfg engine accidents e he hn
    simp [fit, hn, he]
  · intro m coords ls hm
    simp [predict, hm]

/-- Claim C9 (witness): the amended boundary statement applied to the
always-raising engine on three concrete points, and to a concretely
fitted instance. -/
theorem fit_error_boundary_witness :
    engineBoom (extractCoords accidents3) = Except.error "boom" ∧
      ¬ accidents3.length < defaultConfig.min_cluster_size ∧
      fit defaultConfig engineBoom accidents3 =
        { success := false, message := some "boom",
          total_accidents := none, clusters_found := none, clusters := [] } ∧
      predict ⟨defaultConfig, some [1, 1, 1]⟩ [(9, 125)] =
        Except.ok [0] :=
  ⟨rfl, by decide,
    fit_error_boundary.1 defaultConfig engineBoom accidents3 "boom" rfl (by decide),
    fit_error_boundary.2 ⟨defaultConfig, some [1, 1, 1]⟩ [(9, 125)] [1, 1, 1] rfl⟩

end Agnes

namespace Agnes

/-- The running minimum of a nonempty list bounds every element below. -/
lemma foldl_min_le_mem (x : ℚ) (xs : List ℚ) :
    ∀ y ∈ x :: xs, xs.foldl min x ≤ y := by
  induction xs generalizing x with
  | nil =>
      intro y hy
      rw [List.mem_singleton] at hy
      simp [hy]
  | cons z t ih =>
      intro y hy
      simp only [List.foldl_cons]
      have hhead : t.foldl min (min x z) ≤ min x z :=
        ih (min x z) (min x z) (List.mem_cons_self _ _)
      rcases List.mem_cons.mp hy with rfl | hy2
      · exact le_trans hhead (min_le_left _ _)
      · rcases List.mem_cons.mp hy2 with rfl | hy3
        · exact le_trans hhead (min_le_right _ _)
        · exact ih (min x z) y (List.mem_cons_of_mem _ hy3)

/-- The running maximum of a nonempty list bounds every element above. -/
lemma mem_le_foldl_max (x : ℚ) (xs : List ℚ) :
    ∀ y ∈ x :: xs, y ≤ xs.foldl max x := by
  induction xs generalizing x with
  | nil =>
      intro y hy
      rw [List.mem_singleton] at hy
      simp [hy]
  | cons z t ih =>
      intro y hy
      simp only [List.foldl_cons]
      have hhead : max x z ≤ t.foldl max (max x z) :=
        ih (max x z) (max x z) (List.mem_cons_self _ _)
      rcases List.mem_cons.mp hy with rfl | hy2
      · exact le_trans (le_max_left _ _) hhead
      · rcases List.mem_cons.mp hy2 with rfl | hy3
        · exact le_trans (le_max_right _ _) hhead
        · exact ih (max x z) y (List.mem_cons_of_mem _ hy3)

/-- The minimum of a nonempty list is at most its arithmetic mean. -/
lemma foldl_min_le_avg (x : ℚ) (xs : List ℚ) :
    xs.foldl min x ≤ (x :: xs).sum / (((x :: xs).length : ℚ)) := by
  have hpos : (0 : ℚ) < ((x :: xs).length : ℚ) := by
    exact_mod_cast Nat.succ_pos xs.length
  rw [le_div_iff₀ hpos]
  have h := List.card_nsmul_le_sum (x :: xs) (xs.foldl min x) (foldl_min_le_mem x xs)
  rw [nsmul_eq_mul] at h
  calc xs.foldl min x * (((x :: xs).length : ℚ))
      = (((x :: xs).length : ℚ)) * xs.foldl min x := mul_comm _ _
    _ ≤ (x :: xs).sum := h

/-- The arithmetic mean of a nonempty list is at most its maximum. -/
lemma avg_le_foldl_max (x : ℚ) (xs : List ℚ) :
    (x :: xs).sum / (((x :: xs).length : ℚ)) ≤ xs.foldl max x := by
  have hpos : (0 : ℚ) < ((x :: xs).length : ℚ) := by
    exact_mod_cast Nat.succ_pos xs.length
  rw [div_le_iff₀ hpos]
  have h := List.sum_le_card_nsmul (x :: xs) (xs.foldl max x) (mem_le_foldl_max x xs)
  rw [nsmul_eq_mul] at h
  calc (x :: xs).sum
      ≤ (((x :: xs).length : ℚ)) * xs.foldl max x := h
    _ = xs.foldl max x * (((x :: xs).length : ℚ)) := mul_comm _ _

/-- A member list has exactly as many entries as its label occurs in
the label array (for label arrays of matching length). -/
lemma length_membersOf (accidents : List Accident) (labels : List ℤ) (lab : ℤ)
    (hlen : labels.length = accidents.length) :
    (membersOf accidents labels lab).length = labels.count lab := by
  unfold membersOf
  rw [List.length_map, ← List.countP_eq_length_filter, List.count_eq_countP]
  conv_rhs => rw [(List.map_snd_zip accidents labels (le_of_eq hlen)).symm]
  rw [List.countP_map]
  rfl

/-- Membership in a member list is membership of the labelled pair in
the zipped input. -/
lemma mem_membersOf {accidents : List Accident} {labels : List ℤ} {lab : ℤ}
    {a : Accident} :
    a ∈ membersOf accidents labels lab ↔ (a, lab) ∈ accidents.zip labels := by
  unfold membersOf
  simp only [List.mem_map, List.mem_filter]
  constructor
  · rintro ⟨⟨a1, l1⟩, ⟨hz, hl⟩, heq⟩
    simp only [beq_iff_eq] at hl
    simp only at heq
    rw [← heq, ← hl]
    exact hz
  · intro hz
    exact ⟨(a, lab), ⟨hz, by simp⟩, rfl⟩

/-- A label occurring in the label array has a nonempty member list. -/
lemma membersOf_ne_nil {accidents : List Accident} {labels : List ℤ}
    {lab : ℤ} (hlen : labels.length = accidents.length)
    (hmem : lab ∈ labels) :
    membersOf accidents labels lab ≠ [] := by
  have h1 : 0 < labels.count lab := List.count_pos_iff.mpr hmem
  have h2 : 0 < (membersOf accidents labels lab).length := by
    rw [length_membersOf accidents labels lab hlen]
    exact h1
  exact List.length_pos.mp h2

/-- Member lists of two different labels carry disjoint id sets when
the input ids are pairwise distinct. -/
lemma membersOf_id_disjoint {accidents : List Accident} {labels : List ℤ}
    (hids : (accidents.map Accident.id).Nodup) {lab1 lab2 : ℤ}
    (hne : lab1 ≠ lab2) :
    ∀ x ∈ (membersOf accidents labels lab1).map Accident.id,
      x ∉ (membersOf accidents labels lab2).map Accident.id := by
  intro x hx1 hx2
  rw [List.mem_map] at hx1 hx2
  obtain ⟨a1, ha1, hid1⟩ := hx1
  obtain ⟨a2, ha2, hid2⟩ := hx2
  rw [mem_membersOf, List.mem_iff_getElem] at ha1 ha2
  obtain ⟨i, hi, hgi⟩ := ha1
  obtain ⟨j, hj, hgj⟩ := ha2
  have hi1 : i < accidents.length := by
    rw [List.length_zip] at hi
    exact lt_of_lt_of_le hi (min_le_left _ _)
  have hj1 : j < accidents.length := by
    rw [List.length_zip] at hj
    exact lt_of_lt_of_le hj (min_le_left _ _)
  have hi2 : i < labels.length := by
    rw [List.length_zip] at hi
    exact lt_of_lt_of_le hi (min_le_right _ _)
  have hj2 : j < labels.length := by
    rw [List.length_zip] at hj
    exact lt_of_lt_of_le hj (min_le_right _ _)
  rw [List.getElem_zip] at hgi hgj
  have hga1 : accidents[i] = a1 := congrArg Prod.fst hgi
  have hgl1 : labels[i] = lab1 := congrArg Prod.snd hgi
  have hga2 : accidents[j] = a2 := congrArg Prod.fst hgj
  have hgl2 : labels[j] = lab2 := congrArg Prod.snd hgj
  have hmi : i < (accidents.map Accident.id).length := by
    rw [List.length_map]; exact hi1
  have hmj : j < (accidents.map Accident.id).length := by
    rw [List.length_map]; exact hj1
  have hxi : (accidents.map Accident.id)[i] = x := by
    rw [List.getElem_map, hga1, hid1]
  have hxj : (accidents.map Accident.id)[j] = x := by
    rw [List.getElem_map, hga2, hid2]
  have hij : i = j := (hids.getElem_inj_iff).mp (hxi.trans hxj.symm)
  subst hij
  exact hne (hgl1.symm.trans hgl2)

end Agnes

namespace Agnes

/-- Characterisation of a skipped label: no members (impossible for
labels of the array) or an under-sized member list. -/
lemma buildOne_eq_none_iff {cfg : Config} {accidents : List Accident}
    {labels : List ℤ} {lab : ℤ} :
    buildOne cfg accidents labels lab = none ↔
      membersOf accidents labels lab = [] ∨
        (membersOf accidents labels lab).length < cfg.min_cluster_size := by
  unfold buildOne
  cases hm : membersOf accidents labels lab with
  | nil => simp
  | cons a rest =>
      by_cases hlt : (a :: rest).length < cfg.min_cluster_size
      · simp [hlt]
      · simp [hlt]

/-- Characterisation of an emitted cluster: a nonempty member list of
at least the minimum size, assembled by `mkCluster`. -/
lemma buildOne_some {cfg : Config} {accidents : List Accident}
    {labels : List ℤ} {lab : ℤ} {c : Cluster}
    (h : buildOne cfg accidents labels lab = some c) :
    ∃ a rest, membersOf accidents labels lab = a :: rest ∧
      cfg.min_cluster_size ≤ (a :: rest).length ∧
      c = mkCluster cfg lab a rest := by
  unfold buildOne at h
  cases hm : membersOf accidents labels lab with
  | nil => rw [hm] at h; exact absurd h (by simp)
  | cons a rest =>
      rw [hm] at h
      have h2 : (if (a :: rest).length < cfg.min_cluster_size
          then (none : Option Cluster)
          else some (mkCluster cfg lab a rest)) = some c := h
      by_cases hlt : (a :: rest).length < cfg.min_cluster_size
      · rw [if_pos hlt] at h2
        exact absurd h2 (by simp)
      · rw [if_neg hlt] at h2
        exact ⟨a, rest, rfl, not_lt.mp hlt, (Option.some_inj.mp h2).symm⟩

/-- The distinct sorted label list contains exactly the labels of the
array. -/
lemma mem_uniqueSorted {labels : List ℤ} {lab : ℤ} :
    lab ∈ uniqueSorted labels ↔ lab ∈ labels := by
  unfold uniqueSorted
  rw [List.mem_insertionSort, List.mem_dedup]

/-- The distinct sorted label list has no duplicates. -/
lemma nodup_uniqueSorted (labels : List ℤ) : (uniqueSorted labels).Nodup :=
  (List.perm_insertionSort (fun a b => a ≤ b) labels.dedup).symm.nodup
    (List.nodup_dedup labels)

/-- A `fit` that succeeded cannot have taken the fast-reject branch. -/
lemma fit_success_not_small {cfg : Config} {engine : Engine}
    {accidents : List Accident}
    (hs : (fit cfg engine accidents).success = true) :
    ¬ accidents.length < cfg.min_cluster_size := by
  intro hlt
  simp [fit, hlt] at hs

/-- Every aggregated cluster already meets the minimum size, so the
post-hoc size filter of `fit` keeps everything. -/
lemma filter_min_eq_self {cfg : Config} {accidents : List Accident}
    {labels : List ℤ} :
    (build_clusters cfg accidents labels).filter
        (fun c => cfg.min_cluster_size ≤ c.accident_count) =
      build_clusters cfg accidents labels := by
  apply List.filter_eq_self.mpr
  intro c hc
  rw [build_clusters, List.mem_insertionSort, aggregated,
    List.mem_filterMap] at hc
  obtain ⟨lab, _, hb⟩ := hc
  obtain ⟨a, rest, _, hmin, rfl⟩ := buildOne_some hb
  simp only [decide_eq_true_eq]
  exact hmin

/-- On the success path the cluster list of `fit` is exactly the
stable descending sort of the aggregation-order list. -/
lemma fit_clusters_eq {cfg : Config} {engine : Engine}
    {accidents : List Accident} {labels : List ℤ}
    (hn : ¬ accidents.length < cfg.min_cluster_size)
    (he : engine (extractCoords accidents) = Except.ok labels) :
    (fit cfg engine accidents).clusters =
      List.insertionSort sevGE (aggregated cfg accidents labels) := by
  have h1 : (fit cfg engine accidents).clusters =
      (build_clusters cfg accidents labels).filter
        (fun c => cfg.min_cluster_size ≤ c.accident_count) := by
    simp [fit, hn, he]
  rw [h1, filter_min_eq_self, build_clusters]

end Agnes

namespace Agnes

/-- Splitting a list into the occurrences of one value and the rest. -/
lemma count_add_length_filter_ne (a : ℤ) (l : List ℤ) :
    l.count a + (l.filter (fun b => !(b == a))).length = l.length := by
  induction l with
  | nil => simp
  | cons b t ih =>
      by_cases hba : b = a
      · subst hba
        simp only [List.count_cons, List.filter_cons, beq_self_eq_true,
          Bool.not_true, Bool.false_eq_true, if_false, List.length_cons,
          if_true]
        omega
      · have hb : (b == a) = false := beq_eq_false_iff_ne.mpr hba
        simp only [List.count_cons, List.filter_cons, hb, Bool.not_false,
          List.length_cons, if_true, Bool.false_eq_true, if_false]
        omega

/-- Filtering out a different value does not change a count. -/
lemma count_filter_ne {a x : ℤ} (l : List ℤ) (hx : x ≠ a) :
    (l.filter (fun b => !(b == a))).count x = l.count x :=
  List.count_filter (by simp [hx])

/-- Counting each distinct value once accounts for the whole list:
summing the occurrence counts over a duplicate-free covering list of
values gives the length. -/
lemma sum_count_eq_length :
    ∀ (u : List ℤ) (l : List ℤ), u.Nodup → (∀ x ∈ l, x ∈ u) →
      (u.map fun x => l.count x).sum = l.length := by
  intro u
  induction u with
  | nil =>
      intro l _ hcov
      have hl : l = [] :=
        List.eq_nil_iff_forall_not_mem.mpr
          (fun a ha => (List.not_mem_nil a) (hcov a ha))
      simp [hl]
  | cons a u ih =>
      intro l hnd hcov
      have hanu : a ∉ u := (List.nodup_cons.mp hnd).1
      have hmap : (u.map fun x => l.count x) =
          u.map fun x => (l.filter (fun b => !(b == a))).count x := by
        apply List.map_congr_left
        intro x hx
        have hxa : x ≠ a := fun h => hanu (h ▸ hx)
        exact (count_filter_ne l hxa).symm
      have hcov2 : ∀ x ∈ l.filter (fun b => !(b == a)), x ∈ u := by
        intro x hx
        rw [List.mem_filter] at hx
        have hxa : x ≠ a := by simpa using hx.2
        rcases List.mem_cons.mp (hcov x hx.1) with h | h
        · exact absurd h hxa
        · exact h
      rw [List.map_cons, List.sum_cons, hmap,
        ih (l.filter (fun b => !(b == a))) (List.nodup_cons.mp hnd).2 hcov2,
        count_add_length_filter_ne]

/-- The aggregated accident counts are the per-label occurrence counts,
zeroed out where the label class is under-sized. -/
lemma sum_filterMap_buildOne {cfg : Config} {accidents : List Accident}
    {labels : List ℤ} (hlen : labels.length = accidents.length) :
    ∀ (u : List ℤ), (∀ lab ∈ u, lab ∈ labels) →
      ((u.filterMap (buildOne cfg accidents labels)).map
          Cluster.accident_count).sum =
        (u.map fun lab =>
          if cfg.min_cluster_size ≤ labels.count lab
          then labels.count lab else 0).sum := by
  intro u
  induction u with
  | nil => intro _; simp
  | cons lab u ih =>
      intro hu
      have hmem : lab ∈ labels := hu lab (List.mem_cons_self _ _)
      have hne : membersOf accidents labels lab ≠ [] :=
        membersOf_ne_nil hlen hmem
      have hL : (membersOf accidents labels lab).length = labels.count lab :=
        length_membersOf accidents labels lab hlen
      have htail : ∀ x ∈ u, x ∈ labels :=
        fun x hx => hu x (List.mem_cons_of_mem _ hx)
      rw [List.filterMap_cons, List.map_cons, List.sum_cons]
      by_cases hcase : cfg.min_cluster_size ≤ labels.count lab
      · obtain ⟨a, rest, hm⟩ : ∃ a rest,
            membersOf accidents labels lab = a :: rest := by
          cases hmm : membersOf accidents labels lab with
          | nil => exact absurd hmm hne
          | cons a rest => exact ⟨a, rest, rfl⟩
        have hlen2 : (a :: rest).length = labels.count lab := by
          rw [← hm, hL]
        have hbo : buildOne cfg accidents labels lab =
            some (mkCluster cfg lab a rest) := by
          unfold buildOne
          rw [hm]
          show (if (a :: rest).length < cfg.min_cluster_size
              then (none : Option Cluster)
              else some (mkCluster cfg lab a rest)) =
            some (mkCluster cfg lab a rest)
          have hnlt : ¬ (a :: rest).length < cfg.min_cluster_size := by
            rw [hlen2]; exact not_lt.mpr hcase
          rw [if_neg hnlt]
        rw [hbo]
        simp only [List.map_cons, List.sum_cons]
        rw [ih htail, if_pos hcase]
        have hcount : (mkCluster cfg lab a rest).accident_count =
            labels.count lab := by
          simp only [mkCluster]
          exact hlen2
        rw [hcount]
      · have hbo : buildOne cfg accidents labels lab = none := by
          apply buildOne_eq_none_iff.mpr
          right
          rw [hL]
          exact not_le.mp hcase
        rw [hbo, if_neg hcase, ih htail, Nat.zero_add]

end Agnes

namespace Agnes

/-- Inserting a cluster into a list keeps the filtered occurrences of
any severity value in order: elements skipped by the insertion have
strictly larger severity, so they never share the inserted severity. -/
lemma filter_orderedInsert_sev (s : ℚ) (c : Cluster) (l : List Cluster) :
    (List.orderedInsert sevGE c l).filter (fun d => d.severity_score == s) =
      if c.severity_score = s
      then c :: l.filter (fun d => d.severity_score == s)
      else l.filter (fun d => d.severity_score == s) := by
  induction l with
  | nil =>
      by_cases h : c.severity_score = s
      · simp [List.orderedInsert, List.filter_cons, h]
      · simp [List.orderedInsert, List.filter_cons, h]
  | cons b t ih =>
      simp only [List.orderedInsert]
      by_cases hr : sevGE c b
      · rw [if_pos hr]
        by_cases h : c.severity_score = s
        · simp [List.filter_cons, h]
        · simp [List.filter_cons, h]
      · rw [if_neg hr]
        by_cases h : c.severity_score = s
        · have hbs : b.severity_score ≠ s := fun hbs2 =>
            hr (le_of_eq (by rw [hbs2, h]))
          simp [List.filter_cons, ih, h, hbs]
        · simp [List.filter_cons, ih, h]

/-- The stable descending sort preserves, for every severity value,
the relative order of the clusters attaining it. -/
lemma filter_insertionSort_sev (s : ℚ) (l : List Cluster) :
    (List.insertionSort sevGE l).filter (fun d => d.severity_score == s) =
      l.filter (fun d => d.severity_score == s) := by
  induction l with
  | nil => rfl
  | cons c t ih =>
      simp only [List.insertionSort]
      rw [filter_orderedInsert_sev]
      by_cases h : c.severity_score = s
      · rw [if_pos h, ih, List.filter_cons]
        simp [h]
      · rw [if_neg h, ih, List.filter_cons]
        simp [h]

/-- The centroid of an assembled cluster lies inside its bounding box. -/
lemma mkCluster_centroid_bounds (cfg : Config) (lab : ℤ) (a : Accident)
    (rest : List Accident) :
    (mkCluster cfg lab a rest).min_latitude ≤
        (mkCluster cfg lab a rest).center_latitude ∧
      (mkCluster cfg lab a rest).center_latitude ≤
        (mkCluster cfg lab a rest).max_latitude ∧
      (mkCluster cfg lab a rest).min_longitude ≤
        (mkCluster cfg lab a rest).center_longitude ∧
      (mkCluster cfg lab a rest).center_longitude ≤
        (mkCluster cfg lab a rest).max_longitude := by
  have h1 := foldl_min_le_avg a.latitude (rest.map Accident.latitude)
  have h2 := avg_le_foldl_max a.latitude (rest.map Accident.latitude)
  have h3 := foldl_min_le_avg a.longitude (rest.map Accident.longitude)
  have h4 := avg_le_foldl_max a.longitude (rest.map Accident.longitude)
  simp only [List.length_cons, List.length_map] at h1 h2 h3 h4
  simp only [mkCluster, List.map_cons, List.length_cons]
  exact ⟨h1, h2, h3, h4⟩

/-- Clusters aggregated from distinct labels carry pairwise disjoint
member id lists (for duplicate-free input ids). -/
lemma pairwise_disjoint_aggregated {cfg : Config} {accidents : List Accident}
    {labels : List ℤ} (hids : (accidents.map Accident.id).Nodup) :
    List.Pairwise (fun c d => ∀ x ∈ c.accident_ids, x ∉ d.accident_ids)
      (aggregated cfg accidents labels) := by
  unfold aggregated
  rw [List.pairwise_filterMap]
  have hnd : List.Pairwise (fun a b => a ≠ b) (uniqueSorted labels) :=
    nodup_uniqueSorted labels
  refine hnd.imp ?_
  intro lab1 lab2 hne c hc d hd
  have hc2 : buildOne cfg accidents labels lab1 = some c := Option.mem_def.mp hc
  have hd2 : buildOne cfg accidents labels lab2 = some d := Option.mem_def.mp hd
  obtain ⟨a1, r1, hm1, _, rfl⟩ := buildOne_some hc2
  obtain ⟨a2, r2, hm2, _, rfl⟩ := buildOne_some hd2
  intro x hx hx2
  simp only [mkCluster] at hx hx2
  have hx1 : x ∈ (membersOf accidents labels lab1).map Accident.id := by
    rw [hm1]; exact hx
  have hx2b : x ∈ (membersOf accidents labels lab2).map Accident.id := by
    rw [hm2]; exact hx2
  exact membersOf_id_disjoint hids hne x hx1 hx2b

end Agnes

namespace Agnes

/-- Claim C3: in a successful fit (with duplicate-free input ids and a
label per input point) the member id lists of distinct output clusters
are pairwise disjoint, the accident counts sum to at most the input
count, and the sum equals the input count exactly when no label class
is under-sized (no point dropped by the minimum-size filter). -/
theorem fit_partition (cfg : Config) (engine : Engine)
    (accidents : List Accident) (labels : List ℤ)
    (he : engine (extractCoords accidents) = Except.ok labels)
    (hlen : labels.length = accidents.length)
    (hids : (accidents.map Accident.id).Nodup)
    (hs : (fit cfg engine accidents).success = true) :
    List.Pairwise (fun c d => ∀ x ∈ c.accident_ids, x ∉ d.accident_ids)
        ((fit cfg engine accidents).clusters) ∧
      (((fit cfg engine accidents).clusters).map Cluster.accident_count).sum ≤
        accidents.length ∧
      ((((fit cfg engine accidents).clusters).map Cluster.accident_count).sum =
          accidents.length ↔
        ∀ lab ∈ labels, cfg.min_cluster_size ≤ labels.count lab) := by
  have hn := fit_success_not_small hs
  have hcl := fit_clusters_eq hn he
  have hcov : ∀ lab ∈ uniqueSorted labels, lab ∈ labels :=
    fun lab h => mem_uniqueSorted.mp h
  have hsum : (((fit cfg engine accidents).clusters).map
      Cluster.accident_count).sum =
      ((uniqueSorted labels).map fun lab =>
        if cfg.min_cluster_size ≤ labels.count lab
        then labels.count lab else 0).sum := by
    rw [hcl, ((List.perm_insertionSort sevGE
      (aggregated cfg accidents labels)).map Cluster.accident_count).sum_eq]
    exact sum_filterMap_buildOne hlen (uniqueSorted labels) hcov
  have htotal : ((uniqueSorted labels).map fun lab => labels.count lab).sum =
      accidents.length := by
    rw [sum_count_eq_length (uniqueSorted labels) labels
      (nodup_uniqueSorted labels) (fun x hx => mem_uniqueSorted.mpr hx), hlen]
  refine ⟨?_, ?_, ?_⟩
  · rw [hcl]
    have hsymm : ∀ {c d : Cluster},
        (∀ x ∈ c.accident_ids, x ∉ d.accident_ids) →
          ∀ x ∈ d.accident_ids, x ∉ c.accident_ids :=
      fun h x hxd hxc => h x hxc hxd
    exact (List.Perm.pairwise_iff hsymm
      (List.perm_insertionSort sevGE (aggregated cfg accidents labels))).mpr
      (pairwise_disjoint_aggregated hids)
  · rw [hsum]
    calc ((uniqueSorted labels).map fun lab =>
          if cfg.min_cluster_size ≤ labels.count lab
          then labels.count lab else 0).sum
        ≤ ((uniqueSorted labels).map fun lab => labels.count lab).sum := by
          apply List.sum_le_sum
          intro lab _
          by_cases hc : cfg.min_cluster_size ≤ labels.count lab
          · rw [if_pos hc]
          · rw [if_neg hc]; exact Nat.zero_le _
      _ = accidents.length := htotal
  · rw [hsum]
    constructor
    · intro heq
      by_contra hnall
      push_neg at hnall
      obtain ⟨lab, hlab, hcnt⟩ := hnall
      have hstrict : ((uniqueSorted labels).map fun lab =>
          if cfg.min_cluster_size ≤ labels.count lab
          then labels.count lab else 0).sum <
          ((uniqueSorted labels).map fun lab => labels.count lab).sum := by
        apply List.sum_lt_sum
        · intro l2 _
          by_cases hc2 : cfg.min_cluster_size ≤ labels.count l2
          · rw [if_pos hc2]
          · rw [if_neg hc2]; exact Nat.zero_le _
        · refine ⟨lab, mem_uniqueSorted.mpr hlab, ?_⟩
          rw [if_neg (not_le.mpr hcnt)]
          exact List.count_pos_iff.mpr hlab
      rw [htotal, heq] at hstrict
      exact lt_irrefl _ hstrict
    · intro hall
      rw [List.map_congr_left
        (fun lab hlab => if_pos (hall lab (mem_uniqueSorted.mp hlab)))]
      exact htotal

/-- Claim C3 (witness): the partition facts at three concrete points
merged into one flat cluster. -/
theorem fit_partition_witness :
    engine3 (extractCoords accidents3) = Except.ok [1, 1, 1] ∧
      ([1, 1, 1] : List ℤ).length = accidents3.length ∧
      (accidents3.map Accident.id).Nodup ∧
      (fit defaultConfig engine3 accidents3).success = true ∧
      List.Pairwise (fun c d => ∀ x ∈ c.accident_ids, x ∉ d.accident_ids)
        ((fit defaultConfig engine3 accidents3).clusters) ∧
      (((fit defaultConfig engine3 accidents3).clusters).map
          Cluster.accident_count).sum ≤ accidents3.length ∧
      ((((fit defaultConfig engine3 accidents3).clusters).map
            Cluster.accident_count).sum = accidents3.length ↔
        ∀ lab ∈ ([1, 1, 1] : List ℤ),
          defaultConfig.min_cluster_size ≤ ([1, 1, 1] : List ℤ).count lab) := by
  obtain ⟨h1, h2, h3⟩ := fit_partition defaultConfig engine3 accidents3
    [1, 1, 1] rfl rfl (by decide) (by decide)
  exact ⟨rfl, rfl, by decide, by decide, h1, h2, h3⟩

/-- Claim C4: in a successful fit every output cluster satisfies
`accident_count = length of its member id list` and
`accident_count ≥ min_cluster_size`, and a label whose class is
under-sized produces no output cluster at all. -/
theorem fit_cluster_sizes (cfg : Config) (engine : Engine)
    (accidents : List Accident) (labels : List ℤ)
    (he : engine (extractCoords accidents) = Except.ok labels)
    (hlen : labels.length = accidents.length)
    (hs : (fit cfg engine accidents).success = true) :
    (∀ c ∈ (fit cfg engine accidents).clusters,
        c.accident_count = c.accident_ids.length ∧
          cfg.min_cluster_size ≤ c.accident_count) ∧
      ∀ lab : ℤ, labels.count lab < cfg.min_cluster_size →
        ∀ c ∈ (fit cfg engine accidents).clusters, c.cluster_id ≠ lab := by
  have hn := fit_success_not_small hs
  have hcl := fit_clusters_eq hn he
  constructor
  · intro c hc
    rw [hcl, List.mem_insertionSort, aggregated, List.mem_filterMap] at hc
    obtain ⟨lab, _, hb⟩ := hc
    obtain ⟨a, rest, hm, hmin, rfl⟩ := buildOne_some hb
    constructor
    · simp [mkCluster, List.length_map]
    · simpa [mkCluster] using hmin
  · intro lab hcnt c hc hcid
    rw [hcl, List.mem_insertionSort, aggregated, List.mem_filterMap] at hc
    obtain ⟨lab2, _, hb⟩ := hc
    obtain ⟨a, rest, hm, hmin, rfl⟩ := buildOne_some hb
    have hlab2 : lab2 = lab := by simpa [mkCluster] using hcid
    subst hlab2
    have hcount : (a :: rest).length = labels.count lab2 := by
      rw [← hm, length_membersOf accidents labels lab2 hlen]
    omega

/-- Claim C4 (witness): the size facts at three concrete points merged
into one flat cluster. -/
theorem fit_cluster_sizes_witness :
    engine3 (extractCoords accidents3) = Except.ok [1, 1, 1] ∧
      (fit defaultConfig engine3 accidents3).success = true ∧
      (∀ c ∈ (fit defaultConfig engine3 accidents3).clusters,
        c.accident_count = c.accident_ids.length ∧
          defaultConfig.min_cluster_size ≤ c.accident_count) ∧
      ∀ lab : ℤ, ([1, 1, 1] : List ℤ).count lab <
          defaultConfig.min_cluster_size →
        ∀ c ∈ (fit defaultConfig engine3 accidents3).clusters,
          c.cluster_id ≠ lab := by
  obtain ⟨h1, h2⟩ := fit_cluster_sizes defaultConfig engine3 accidents3
    [1, 1, 1] rfl rfl (by decide)
  exact ⟨rfl, by decide, h1, h2⟩

/-- Claim C5: the cluster list of a successful fit is non-increasing in
severity score, and for every severity value the clusters attaining it
appear in exactly their aggregation (label-iteration) order — the sort
is stable and the subsequent minimum-size filter (which keeps every
built cluster) preserves the order. -/
theorem fit_sorted_and_stable (cfg : Config) (engine : Engine)
    (accidents : List Accident) (labels : List ℤ)
    (he : engine (extractCoords accidents) = Except.ok labels)
    (hs : (fit cfg engine accidents).success = true) :
    List.Sorted sevGE ((fit cfg engine accidents).clusters) ∧
      ∀ s : ℚ, ((fit cfg engine accidents).clusters).filter
          (fun c => c.severity_score == s) =
        (aggregated cfg accidents labels).filter
          (fun c => c.severity_score == s) := by
  have hn := fit_success_not_small hs
  rw [fit_clusters_eq hn he]
  exact ⟨List.sorted_insertionSort sevGE _,
    fun s => filter_insertionSort_sev s _⟩

/-- Claim C5 (witness): sortedness and stability at three concrete
points merged into one flat cluster of severity 21. -/
theorem fit_sorted_and_stable_witness :
    engine3 (extractCoords accidents3) = Except.ok [1, 1, 1] ∧
      (fit defaultConfig engine3 accidents3).success = true ∧
      List.Sorted sevGE ((fit defaultConfig engine3 accidents3).clusters) ∧
      ((fit defaultConfig engine3 accidents3).clusters).filter
          (fun c => c.severity_score == 21) =
        (aggregated defaultConfig accidents3 [1, 1, 1]).filter
          (fun c => c.severity_score == 21) := by
  obtain ⟨h1, h2⟩ := fit_sorted_and_stable defaultConfig engine3 accidents3
    [1, 1, 1] rfl (by decide)
  exact ⟨rfl, by decide, h1, h2 21⟩

/-- Claim C6: when there are enough input points but every flat label
class is under-sized, `fit` returns the success record with an empty
cluster list — not a failure. -/
theorem fit_zero_clusters_success (cfg : Config) (engine : Engine)
    (accidents : List Accident) (labels : List ℤ)
    (he : engine (extractCoords accidents) = Except.ok labels)
    (hlen : labels.length = accidents.length)
    (hsz : cfg.min_cluster_size ≤ accidents.length)
    (hsmall : ∀ lab ∈ labels, labels.count lab < cfg.min_cluster_size) :
    fit cfg engine accidents =
      { success := true, message := none,
        total_accidents := some accidents.length,
        clusters_found := some 0, clusters := [] } := by
  have hn : ¬ accidents.length < cfg.min_cluster_size := not_lt.mpr hsz
  have hagg : aggregated cfg accidents labels = [] := by
    unfold aggregated
    rw [List.filterMap_eq_nil_iff]
    intro lab hlab
    apply buildOne_eq_none_iff.mpr
    right
    rw [length_membersOf accidents labels lab hlen]
    exact hsmall lab (mem_uniqueSorted.mp hlab)
  simp [fit, hn, he, build_clusters, hagg]

/-- Claim C6 (witness): three concrete points left as singletons by the
engine give a successful fit with zero clusters. -/
theorem fit_zero_clusters_success_witness :
    engineSingletons (extractCoords accidents3) = Except.ok [1, 2, 3] ∧
      ([1, 2, 3] : List ℤ).length = accidents3.length ∧
      defaultConfig.min_cluster_size ≤ accidents3.length ∧
      (∀ lab ∈ ([1, 2, 3] : List ℤ),
        ([1, 2, 3] : List ℤ).count lab < defaultConfig.min_cluster_size) ∧
      fit defaultConfig engineSingletons accidents3 =
        { success := true, message := none,
          total_accidents := some accidents3.length,
          clusters_found := some 0, clusters := [] } :=
  ⟨rfl, rfl, by decide, by decide,
    fit_zero_clusters_success defaultConfig engineSingletons accidents3
      [1, 2, 3] rfl rfl (by decide) (by decide)⟩

/-- Claim C8: every cluster of a successful fit has its centroid
(arithmetic mean of member coordinates) inside its elementwise min/max
bounding box. -/
theorem fit_centroid_in_bbox (cfg : Config) (engine : Engine)
    (accidents : List Accident)
    (hs : (fit cfg engine accidents).success = true) :
    ∀ c ∈ (fit cfg engine accidents).clusters,
      c.min_latitude ≤ c.center_latitude ∧
        c.center_latitude ≤ c.max_latitude ∧
        c.min_longitude ≤ c.center_longitude ∧
        c.center_longitude ≤ c.max_longitude := by
  intro c hc
  have hn := fit_success_not_small hs
  cases he : engine (extractCoords accidents) with
  | error e => simp [fit, hn, he] at hc
  | ok labels =>
      rw [fit_clusters_eq hn he, List.mem_insertionSort, aggregated,
        List.mem_filterMap] at hc
      obtain ⟨lab, _, hb⟩ := hc
      obtain ⟨a, rest, _, _, rfl⟩ := buildOne_some hb
      exact mkCluster_centroid_bounds cfg lab a rest

/-- Claim C8 (witness): the centroid bound at three concrete points
merged into one flat cluster. -/
theorem fit_centroid_in_bbox_witness :
    (fit defaultConfig engine3 accidents3).success = true ∧
      ∀ c ∈ (fit defaultConfig engine3 accidents3).clusters,
        c.min_latitude ≤ c.center_latitude ∧
          c.center_latitude ≤ c.max_latitude ∧
          c.min_longitude ≤ c.center_longitude ∧
          c.center_longitude ≤ c.max_longitude :=
  ⟨by decide, fit_centroid_in_bbox defaultConfig engine3 accidents3 (by decide)⟩

/-- Claim C10: a missing `victim_count` contributes 0 to
`total_casualties`, missing `victim_killed`/`victim_injured` leave
the point uncounted in the killed/injured tallies, and a missing
`municipal` is treated as the string "Unknown", entering the
municipality list, the dedup set and the primary-location selection
exactly like that literal value. -/
theorem missing_fields_defaults (a b : Accident) (pre post : List Accident)
    (hvc : a.victim_count = none) (hvk : a.victim_killed = none)
    (hvi : a.victim_injured = none) (hmu : a.municipal = none)
    (hb : b = ⟨a.id, a.latitude, a.longitude, some 0, some false, some false,
      some "Unknown", a.date_committed⟩) :
    totalCasualties (pre ++ a :: post) = totalCasualties (pre ++ post) ∧
      killedCount (pre ++ a :: post) = killedCount (pre ++ post) ∧
      injuredCount (pre ++ a :: post) = injuredCount (pre ++ post) ∧
      municipalsOf (pre ++ a :: post) =
        municipalsOf pre ++ "Unknown" :: municipalsOf post ∧
      totalCasualties (pre ++ a :: post) = totalCasualties (pre ++ b :: post) ∧
      killedCount (pre ++ a :: post) = killedCount (pre ++ b :: post) ∧
      injuredCount (pre ++ a :: post) = injuredCount (pre ++ b :: post) ∧
      municipalsOf (pre ++ a :: post) = municipalsOf (pre ++ b :: post) ∧
      primaryLocation (municipalsOf (pre ++ a :: post)) =
        primaryLocation (municipalsOf (pre ++ b :: post)) ∧
      (municipalsOf (pre ++ a :: post)).dedup =
        (municipalsOf (pre ++ b :: post)).dedup := by
  subst hb
  refine ⟨?_, ?_, ?_, ?_, ?_, ?_, ?_, ?_, ?_, ?_⟩ <;>
    simp [totalCasualties, killedCount, injuredCount, municipalsOf,
      List.map_append, List.countP_append, List.countP_cons,
      List.sum_append, hvc, hvk, hvi, hmu]

/-- Claim C10 (witness): the default treatment of the all-missing
record `accB` between two fully populated records. -/
theorem missing_fields_defaults_witness :
    totalCasualties ([accA] ++ accB :: [accC]) =
        totalCasualties ([accA] ++ [accC]) ∧
      killedCount ([accA] ++ accB :: [accC]) =
        killedCount ([accA] ++ [accC]) ∧
      injuredCount ([accA] ++ accB :: [accC]) =
        injuredCount ([accA] ++ [accC]) ∧
      municipalsOf ([accA] ++ accB :: [accC]) =
        municipalsOf [accA] ++ "Unknown" :: municipalsOf [accC] ∧
      totalCasualties ([accA] ++ accB :: [accC]) =
        totalCasualties ([accA] ++ accBdefaults :: [accC]) ∧
      killedCount ([accA] ++ accB :: [accC]) =
        killedCount ([accA] ++ accBdefaults :: [accC]) ∧
      injuredCount ([accA] ++ accB :: [accC]) =
        injuredCount ([accA] ++ accBdefaults :: [accC]) ∧
      municipalsOf ([accA] ++ accB :: [accC]) =
        municipalsOf ([accA] ++ accBdefaults :: [accC]) ∧
      primaryLocation (municipalsOf ([accA] ++ accB :: [accC])) =
        primaryLocation (municipalsOf ([accA] ++ accBdefaults :: [accC])) ∧
      (municipalsOf ([accA] ++ accB :: [accC])).dedup =
        (municipalsOf ([accA] ++ accBdefaults :: [accC])).dedup :=
  missing_fields_defaults accB accBdefaults [accA] [accC]
    rfl rfl rfl rfl (by decide)

end Agnes
